import Mathlib

/-!
Verification of the mcp-file-lens confinement engine and query operations.

The Python source (src/mcp_file_lens/security.py and server.py) is embedded
shallowly: canonical filesystem paths become lists of components, file bytes
become lists of naturals, the filesystem itself becomes an explicit
environment record, and each Python function becomes a total Lean function
mirroring its control flow.  Python exceptions are modelled with `Except`.
-/

namespace McpFileLens

/-! ## String utilities shared by the embedding -/

/-- Membership of `pat` as a contiguous substring, mirroring Python's
`pat in s` on strings (an empty `pat` is contained in every string). -/
def hasInfixFrom (pat : List Char) : List Char → Bool
  | [] => pat.isEmpty
  | c :: ts => pat.isPrefixOf (c :: ts) || hasInfixFrom pat ts

/-- `strContains s pat` is Python's `pat in s`. -/
def strContains (s pat : String) : Bool :=
  hasInfixFrom pat.data s.data

/-- `strHasPre p s` is Python's `s.startswith(p)` (a naive string-form
test, used only to state what the validator must NOT do). -/
def strHasPre (p s : String) : Bool :=
  p.data.isPrefixOf s.data

/-- Right-alignment `f"{s:>w}"`: pad on the left with spaces up to width `w`. -/
def padLeft (s : String) (w : Nat) : String :=
  String.mk (List.replicate (w - s.length) ' ') ++ s

/-- Split a character list on a separator character; Python's `str.split`
on a one-character separator (`"".split` gives one empty field). -/
def splitCharsOn (sep : Char) : List Char → List (List Char)
  | [] => [[]]
  | c :: cs =>
    let r := splitCharsOn sep cs
    if c == sep then [] :: r
    else
      match r with
      | [] => [[c]]
      | g :: gs => (c :: g) :: gs

/-- Python `path.split("/")`. -/
def pySplitSlash (s : String) : List String :=
  (splitCharsOn '/' s.data).map String.mk

/-- Python `str.splitlines` restricted to `'\n'` terminators (the only
terminator exercised by this code base): split on `'\n'` and drop a final
empty field so a trailing newline yields no extra line. -/
def splitlines (s : String) : List String :=
  let parts := (splitCharsOn '\n' s.data).map String.mk
  if parts.getLast? == some "" then parts.dropLast else parts

/-! ## Path confinement (security.validate_path)

A canonical (symlink- and dot-resolved) absolute path is a list of
components.  `Path.relative_to` on two resolved absolute paths succeeds
exactly when the base's components are a component-wise prefix, which is
`List.isPrefixOf` here.  The filesystem's answers to `exists()` are passed
in as booleans; the original (unresolved) string form of the argument is
passed separately because the error message interpolates it verbatim. -/

/-- Render a canonical component list the way Python prints an absolute
`Path` (used in the "Parent directory does not exist" message). -/
def pathString (comps : List String) : String :=
  "/" ++ String.intercalate "/" comps

/-- Embedding of `security.validate_path` for a configured root.
`resolved` is `Path(path).resolve()` as components, `orig` the argument
string, `pathEx` whether the resolved path exists, `parentEx` whether its
parent exists.  Mirrors the source: an existing path is checked with
`relative_to` against the root; a missing path falls back to checking its
parent, and a missing parent is reported as its own failure. -/
def validate_path (root resolved : List String) (orig : String)
    (pathEx parentEx : Bool) : Bool × String :=
  if pathEx then
    if root.isPrefixOf resolved then (true, "")
    else (false, "Access denied: Path '" ++ orig ++ "' is outside allowed directory")
  else
    if parentEx then
      if root.isPrefixOf resolved.dropLast then (true, "")
      else (false, "Access denied: Path '" ++ orig ++ "' is outside allowed directory")
    else (false, "Parent directory does not exist: " ++ pathString resolved.dropLast)

/-! ## Ignore-pattern matching (security._simple_pattern_match and friends) -/

/-- `starLoop k t` explores the suffixes of `t` reachable by letting one
`[^/]*` wildcard consume characters: it succeeds when the continuation `k`
accepts what remains after the wildcard ate a run of non-separator
characters. -/
def starLoop (k : List Char → Bool) : List Char → Bool
  | [] => k []
  | c :: ts => k (c :: ts) || (!(c == '/') && starLoop k ts)

/-- Matching of the regex built by `_simple_pattern_match` — `'.'`
escaped, `'*'` replaced by `[^/]*`, anchored at both ends — evaluated
directly on character lists.  Faithful to the source for patterns free of
the remaining (unescaped) regex metacharacters, which covers every rule
shape the specification describes. -/
def globMatch : List Char → List Char → Bool
  | [], t => t.isEmpty
  | p :: ps, t =>
    if p == '*' then starLoop (globMatch ps) t
    else
      match t with
      | [] => false
      | c :: ts => (p == c) && globMatch ps ts

/-- Embedding of `security._simple_pattern_match`. -/
def _simple_pattern_match (text pat : String) : Bool :=
  globMatch pat.data text.data

/-- Characters the source's ad hoc regex construction treats literally:
everything except the metacharacters it fails to escape (`'.'` is escaped
and `'*'` is the wildcard, so both are safe). -/
def regexSafeChar (c : Char) : Bool :=
  !(['\\', '+', '?', '$', '^', '|', '(', ')', '[', ']'].contains c)
    && !(c == '\x7b') && !(c == '\x7d')

/-- A pattern on which the embedding of `_simple_pattern_match` agrees
exactly with the source's regex construction. -/
def regexSafe (s : String) : Bool := s.data.all regexSafeChar

/-- No `'*'` wildcard among the characters. -/
def noStarChars : List Char → Bool
  | [] => true
  | c :: cs => !(c == '*') && noStarChars cs

/-- A wildcard-free pattern. -/
def noStarStr (s : String) : Bool := noStarChars s.data

/-- Python `pattern.endswith("/")`. -/
def endsSlash (s : String) : Bool := s.data.getLast? == some '/'

/-- Python `pattern.startswith("/")`. -/
def startsSlash (s : String) : Bool := s.data.head? == some '/'

/-- Python `pattern[:-1]`. -/
def dropLastChar (s : String) : String := String.mk s.data.dropLast

/-- Python `pattern[1:]`. -/
def dropFirstChar (s : String) : String := String.mk (s.data.drop 1)

/-- Embedding of `security._matches_gitignore_pattern`: directory rules
(trailing separator) are tried against every ancestor segment sequence of
the path; root-anchored rules (leading separator) only against the whole
path; all other rules against the whole path, every suffix obtained by
dropping leading segments, and every single segment. -/
def _matches_gitignore_pattern (path pattern : String) : Bool :=
  if endsSlash pattern then
    let pat := dropLastChar pattern
    let parts := pySplitSlash path
    (List.range parts.length).any fun i =>
      _simple_pattern_match (String.intercalate "/" (parts.take (i + 1))) pat
  else if startsSlash pattern then
    _simple_pattern_match path (dropFirstChar pattern)
  else
    _simple_pattern_match path pattern
      || ((List.range (pySplitSlash path).length).any fun i =>
            _simple_pattern_match
              (String.intercalate "/" ((pySplitSlash path).drop i)) pattern
            || _simple_pattern_match ((pySplitSlash path).getD i "") pattern)

/-- Embedding of `security._is_gitignored`, taking the root-relative
slash-joined form of the path (the source computes it with `relative_to`
and separator normalisation; a missing root or unset rule list yields the
early `False`, folded into the `isEmpty` test here) plus the loaded rule
list and the process-wide enable flag. -/
def _is_gitignored (enabled : Bool) (patterns : List String) (relPath : String) : Bool :=
  if !enabled || patterns.isEmpty then false
  else patterns.any fun pat => _matches_gitignore_pattern relPath pat

/-! ## Binary content classification (security._is_binary_file) -/

/-- A byte counting as a non-text control character: value below 32 and
not tab (9), line feed (10) or carriage return (13). -/
def nonTextByte (b : Nat) : Bool :=
  decide (b < 32) && !(b == 9) && !(b == 10) && !(b == 13)

/-- Embedding of `security._is_binary_file`.  The input is `none` when
opening or reading raises `OSError`/`PermissionError`, otherwise the
file's bytes; the classifier samples the first 1024 of them.  The source
compares `non_text / len > 0.3` in floating point; no quotient with
denominator at most 1024 lies strictly between the rational 3/10 and the
nearest double to 0.3, so that comparison is exactly the integer test
`10 * non_text > 3 * len` used here. -/
def _is_binary_file (bytes? : Option (List Nat)) : Bool :=
  match bytes? with
  | none => true
  | some bs =>
    let chunk := bs.take 1024
    if chunk.isEmpty then false
    else if 0 ∈ chunk then true
    else decide (3 * chunk.length < 10 * (chunk.filter nonTextByte).length)

/-! ## Secure text reading (security.SecureFileSystem.read_text) -/

/-- The `PermissionError`s `read_text` can raise, keeping the data each
message interpolates: `accessDenied msg` is "Access denied: {msg}",
`binaryFile p` is "Cannot read binary file: {p}", and
`undecodable enc p` is "Cannot decode file as {enc}: {p}". -/
inductive ReadErr where
  | accessDenied (msg : String)
  | binaryFile (path : String)
  | undecodable (encoding path : String)
deriving DecidableEq

/-- Embedding of `SecureFileSystem.read_text`.  `verdict` is the
`validate_path` result for the path, `isBinary` the classifier's answer
on the resolved file, `strictDecode` the outcome of Python
`read_text(encoding)` (`none` = `UnicodeDecodeError`), `replaceDecode`
the outcome of the `errors="replace"` retry (`none` = any exception in
that retry). -/
def read_text (verdict : Bool × String) (isBinary : Bool)
    (strictDecode replaceDecode : Option String)
    (pathStr encoding : String) : Except ReadErr String :=
  if verdict.1 = false then .error (.accessDenied verdict.2)
  else if isBinary then .error (.binaryFile pathStr)
  else
    match strictDecode with
    | some s => .ok s
    | none =>
      match replaceDecode with
      | some s => .ok s
      | none => .error (.undecodable encoding pathStr)

/-! ## Query operations (server.py)

The filesystem and the security facade `fs` are abstracted into an
environment record: each field is the answer the facade gives for a path
string.  Fields returning `Except String _` model Python calls that can
raise (`PermissionError` / `OSError`), the error being `str(e)`. -/

/-- A directory entry as the facade yields it: the full path string of
the `Path` object and its final component (`item.name`). -/
structure Entry where
  path : String
  name : String

/-- Results of every facade/filesystem call the query operations make. -/
structure Env where
  ex : String → Bool
  isFileAt : String → Bool
  isDirAt : String → Bool
  statSize : String → Except String Nat
  iterdirAt : String → Except String (List Entry)
  rglobAt : String → Except String (List Entry)
  readTextAt : String → Except String String
  resolveStr : String → String
  relTo : String → String → Option String
  cwdRel : String → Option String

/-- String order used to model Python's `sorted` over paths. -/
def strLe (x y : String) : Bool := !(decide (y < x))

def insertSorted (le : α → α → Bool) (x : α) : List α → List α
  | [] => [x]
  | y :: ys => if le x y then x :: y :: ys else y :: insertSorted le x ys

def sortBy (le : α → α → Bool) : List α → List α
  | [] => []
  | x :: xs => insertSorted le x (sortBy le xs)

def sortEntries (l : List Entry) : List Entry :=
  sortBy (fun x y => strLe x.path y.path) l

/-- Python `range(a, b)` over machine integers. -/
def pyRange (a b : Int) : List Int :=
  (List.range (b - a).toNat).map fun (k : Nat) => a + (k : Int)

/-- The `try: return body() except Exception as e: return f"Error: {e}"`
wrapper shared by all five MCP tools. -/
def pyCatch (x : Except String String) : String :=
  match x with
  | .ok s => s
  | .error e => "Error: " ++ e

/-- Loop body of `_list_directory_simple`: directories render as a
10-wide blank, name and `/`; files as right-aligned size and name; a
`stat` failure aborts the loop, keeping the entries already formatted
(the source's `except (OSError, PermissionError)` around the loop). -/
def simpleLoop (env : Env) : List Entry → List String
  | [] => []
  | it :: rest =>
    if env.isDirAt it.path then
      (padLeft "" 10 ++ " " ++ it.name ++ "/") :: simpleLoop env rest
    else
      match env.statSize it.path with
      | .ok size => (padLeft (toString size) 10 ++ " " ++ it.name) :: simpleLoop env rest
      | .error _ => []

/-- Embedding of `server._list_directory_simple`. -/
def _list_directory_simple (env : Env) (dirPath : String) : List String :=
  match env.iterdirAt dirPath with
  | .error _ => []
  | .ok items => simpleLoop env (sortEntries items)

/-- Loop body of `_list_directory_recursive`: non-files are skipped, a
failing `relative_to` skips the entry (`except ValueError: continue`),
and a `stat` failure aborts the loop keeping earlier entries. -/
def recLoop (env : Env) (base : String) : List Entry → List String
  | [] => []
  | it :: rest =>
    if env.isFileAt it.path then
      match env.relTo it.path base with
      | none => recLoop env base rest
      | some rel =>
        match env.statSize it.path with
        | .ok size => (padLeft (toString size) 10 ++ " " ++ rel) :: recLoop env base rest
        | .error _ => []
    else recLoop env base rest

/-- Embedding of `server._list_directory_recursive` (with the default
`relative_to=None`, i.e. the resolved directory itself). -/
def _list_directory_recursive (env : Env) (dirPath : String) : List String :=
  match env.rglobAt dirPath with
  | .error _ => []
  | .ok items => recLoop env (env.resolveStr dirPath) (sortEntries items)

/-- Body of `server.list_dir` inside its catch-all. -/
def list_dirBody (env : Env) (path : String) (recursive : Bool) : Except String String :=
  if !(env.ex path) then .ok ("Error: Path does not exist: " ++ path)
  else if !(env.isDirAt path) then .ok ("Error: Path is not a directory: " ++ path)
  else
    let items := if recursive then _list_directory_recursive env path
                 else _list_directory_simple env path
    if items.isEmpty then .ok ("Directory " ++ path ++ " is empty")
    else .ok (String.intercalate "\n" items)

/-- Embedding of the MCP tool `list_dir`. -/
def list_dir (env : Env) (path : String) (recursive : Bool) : String :=
  pyCatch (list_dirBody env path recursive)

/-- Body of `server.read_file` inside its catch-all. -/
def read_fileBody (env : Env) (path : String) (lineno : Bool) : Except String String :=
  if !(env.ex path) then .ok ("Error: File does not exist: " ++ path)
  else if !(env.isFileAt path) then .ok ("Error: Path is not a file: " ++ path)
  else do
    let content ← env.readTextAt path
    let lines := splitlines content
    if lineno then
      return String.intercalate "\n"
        ((List.enum lines).map fun pr => padLeft (toString (pr.1 + 1)) 6 ++ "\t" ++ pr.2)
    else
      return content

/-- Embedding of the MCP tool `read_file`. -/
def read_file (env : Env) (path : String) (lineno : Bool) : String :=
  pyCatch (read_fileBody env path lineno)

/-- Prefix construction of `_grep_file`'s output lines: optional display
path, optional 1-based line number, joined by `:` and followed by `:`
and the line text. -/
def formatGrepLine (filename lineno : Bool) (disp : String) (idx : Int)
    (line : String) : String :=
  let parts := (if filename then [disp] else [])
    ++ (if lineno then [toString (idx + 1)] else [])
  if parts.isEmpty then line
  else String.intercalate ":" parts ++ ":" ++ line

/-- Python `max` over a list of ints (only ever applied to a non-empty
list: the source guards it behind truthiness of `included_indices`). -/
def maxIntList (l : List Int) : Int :=
  match l with
  | [] => 0
  | x :: xs => xs.foldl max x

/-- Inner loop of `_grep_file`: append the formatted line and record the
index for every index of the window not yet included. -/
def grepAddRange (lines : List String) (lineno filename : Bool) (disp : String)
    (st : List String × List Int) (idxs : List Int) : List String × List Int :=
  idxs.foldl
    (fun st idx =>
      if idx ∈ st.2 then st
      else (st.1 ++ [formatGrepLine filename lineno disp idx (lines.getD idx.toNat "")],
            st.2 ++ [idx]))
    st

/-- One match of `_grep_file`'s outer loop: compute the clipped context
window, emit a `--` separator when the window starts past a gap, then add
the window's lines.  `min(range(start, stop))` on an empty window raises
`ValueError`, modelled as `.error ()` (the surrounding catch turns it
into an empty result). -/
def grepStep (lines : List String) (before after : Int) (lineno filename : Bool)
    (disp : String) (st : List String × List Int) (m : Int) :
    Except Unit (List String × List Int) :=
  let start := max 0 (m - before)
  let stop := min (lines.length : Int) (m + after + 1)
  let idxs := pyRange start stop
  if st.1.isEmpty || st.2.isEmpty then
    .ok (grepAddRange lines lineno filename disp st idxs)
  else
    match idxs with
    | [] => .error ()
    | i0 :: _ =>
      if i0 > maxIntList st.2 + 1 then
        .ok (grepAddRange lines lineno filename disp (st.1 ++ ["--"], st.2) idxs)
      else
        .ok (grepAddRange lines lineno filename disp st idxs)

/-- The 0-based indices of the lines containing the search string. -/
def matchIndices (lines : List String) (search : String) : List Int :=
  ((List.enum lines).filter fun pr => strContains pr.2 search).map fun pr => (pr.1 : Int)

/-- The whole match loop of `_grep_file`. -/
def grepRun (lines : List String) (search : String) (before after : Int)
    (lineno filename : Bool) (disp : String) : Except Unit (List String × List Int) :=
  (matchIndices lines search).foldlM (grepStep lines before after lineno filename disp)
    ([], [])

/-- Embedding of `server._grep_file`.  A read failure or an exception in
the loop returns `[]` (the source's two `except` clauses); the display
path is the path relative to the working directory when available,
otherwise the path itself (computed once here — the source recomputes
the same value per line). -/
def _grep_file (env : Env) (filePath search : String) (before after : Int)
    (lineno filename : Bool) : List String :=
  match env.readTextAt filePath with
  | .error _ => []
  | .ok content =>
    let lines := splitlines content
    if (matchIndices lines search).isEmpty then []
    else
      match grepRun lines search before after lineno filename
          ((env.cwdRel filePath).getD filePath) with
      | .ok st => st.1
      | .error _ => []

/-- Body of `server.read_file_grep` inside its catch-all. -/
def read_file_grepBody (env : Env) (path search : String) (before after : Int)
    (context : Option Int) (lineno : Bool) : Except String String :=
  if !(env.ex path) then .ok ("Error: File does not exist: " ++ path)
  else if !(env.isFileAt path) then .ok ("Error: Path is not a file: " ++ path)
  else if search = "" then .ok "Error: Search string cannot be empty"
  else
    let b := match context with | some c => c | none => before
    let a := match context with | some c => c | none => after
    let res := _grep_file env path search b a lineno false
    if res.isEmpty then .ok ("No matches found for '" ++ search ++ "' in " ++ path)
    else .ok (String.intercalate "\n" res)

/-- Embedding of the MCP tool `read_file_grep`. -/
def read_file_grep (env : Env) (path search : String) (before after : Int)
    (context : Option Int) (lineno : Bool) : String :=
  pyCatch (read_file_grepBody env path search before after context lineno)

/-- File loop of `read_files_grep`: per regular file, grep it, extend the
accumulated results and close each contributing file with a `--`
separator unless one is already last. -/
def filesLoop (env : Env) (search : String) (b a : Int) (lineno filename : Bool) :
    List Entry → List String → Nat → List String × Nat
  | [], acc, fc => (acc, fc)
  | it :: rest, acc, fc =>
    if env.isFileAt it.path then
      let res := _grep_file env it.path search b a lineno filename
      if res.isEmpty then filesLoop env search b a lineno filename rest acc (fc + 1)
      else
        let acc1 := acc ++ res
        let acc2 := if acc1.getLast? == some "--" then acc1 else acc1 ++ ["--"]
        filesLoop env search b a lineno filename rest acc2 (fc + 1)
    else filesLoop env search b a lineno filename rest acc fc

/-- Body of `server.read_files_grep` inside its catch-all. -/
def read_files_grepBody (env : Env) (path search : String) (before after : Int)
    (context : Option Int) (lineno filename : Bool) : Except String String :=
  if !(env.ex path) then .ok ("Error: Path does not exist: " ++ path)
  else if !(env.isDirAt path) then .ok ("Error: Path is not a directory: " ++ path)
  else if search = "" then .ok "Error: Search string cannot be empty"
  else
    let b := match context with | some c => c | none => before
    let a := match context with | some c => c | none => after
    let res :=
      match env.rglobAt path with
      | .error _ => ([], 0)
      | .ok items => filesLoop env search b a lineno filename (sortEntries items) [] 0
    let allRes := if res.1.getLast? == some "--" then res.1.dropLast else res.1
    if allRes.isEmpty then
      .ok ("No matches found for '" ++ search ++ "' in " ++ toString res.2
        ++ " files under " ++ path)
    else
      .ok ("Found matches in " ++ toString (allRes.filter (fun r => !(r == "--"))).length
        ++ " lines across " ++ path ++ "\n--\n" ++ String.intercalate "\n" allRes)

/-- Embedding of the MCP tool `read_files_grep`. -/
def read_files_grep (env : Env) (path search : String) (before after : Int)
    (context : Option Int) (lineno filename : Bool) : String :=
  pyCatch (read_files_grepBody env path search before after context lineno filename)

/-- Body of `server.read_file_range` inside its catch-all. -/
def read_file_rangeBody (env : Env) (path : String) (start_line end_line : Int)
    (lineno : Bool) : Except String String :=
  if !(env.ex path) then .ok ("Error: File does not exist: " ++ path)
  else if !(env.isFileAt path) then .ok ("Error: Path is not a file: " ++ path)
  else if start_line < 1 then
    .ok ("Error: Start line must be >= 1, got " ++ toString start_line)
  else if end_line < start_line then
    .ok ("Error: End line must be >= start line, got range (" ++ toString start_line
      ++ ", " ++ toString end_line ++ ")")
  else do
    let content ← env.readTextAt path
    let lines := splitlines content
    let startIdx := start_line - 1
    let endIdx := min end_line (lines.length : Int)
    let selected := (pyRange startIdx endIdx).filterMap fun i =>
      if i < (lines.length : Int) then
        some (if lineno then toString (i + 1) ++ ":" ++ lines.getD i.toNat ""
              else lines.getD i.toNat "")
      else none
    if selected.isEmpty then return "No lines found in specified ranges for " ++ path
    else return String.intercalate "\n" selected

/-- Embedding of the MCP tool `read_file_range`. -/
def read_file_range (env : Env) (path : String) (start_line end_line : Int)
    (lineno : Bool) : String :=
  pyCatch (read_file_rangeBody env path start_line end_line lineno)

/-- The union of the per-match context windows `[m - before, m + after]`
clipped to the file's index range: the set of line indices claim C10
predicts `_grep_file` emits. -/
def windowSet (len before after : Int) (ms : List Int) : Finset Int :=
  ms.toFinset.biUnion fun m => Finset.Ico (max 0 (m - before)) (min len (m + after + 1))

/-- A filesystem with nothing in it (every call fails or denies). -/
def emptyEnv : Env where
  ex := fun _ => false
  isFileAt := fun _ => false
  isDirAt := fun _ => false
  statSize := fun _ => .error "stat failed"
  iterdirAt := fun _ => .error "io failed"
  rglobAt := fun _ => .error "io failed"
  readTextAt := fun _ => .error "Access denied"
  resolveStr := fun s => s
  relTo := fun _ _ => none
  cwdRel := fun _ => none

/-- A ten-line text file. -/
def tenLines : String := "L1\nL2\nL3\nL4\nL5\nL6\nL7\nL8\nL9\nL10"

/-- A filesystem holding exactly the readable ten-line file `f.txt`. -/
def fileEnv : Env :=
  { emptyEnv with
    ex := fun p => p == "f.txt"
    isFileAt := fun p => p == "f.txt"
    readTextAt := fun p => if p == "f.txt" then .ok tenLines else .error "Access denied" }

/-! ## Theorems -/

theorem isPrefixOf_eq_true_iff (p : List String) :
    ∀ l : List String, p.isPrefixOf l = true ↔ ∃ t, p ++ t = l := by
  induction p with
  | nil =>
    intro l
    simp [List.isPrefixOf]
  | cons a p ih =>
    intro l
    cases l with
    | nil =>
      simp [List.isPrefixOf]
    | cons b l =>
      simp only [List.isPrefixOf, Bool.and_eq_true, beq_iff_eq, ih l]
      constructor
      · rintro ⟨rfl, t, rfl⟩
        exact ⟨t, rfl⟩
      · rintro ⟨t, h⟩
        have hb : a = b := by
          injection h with h1 h2
        refine ⟨hb, t, ?_⟩
        injection h

theorem isPrefixOf_of_dropLast {root l : List String}
    (h : root.isPrefixOf l.dropLast = true) : root.isPrefixOf l = true := by
  rcases (isPrefixOf_eq_true_iff root l.dropLast).1 h with ⟨t, ht⟩
  rcases eq_or_ne l [] with rfl | hne
  · simpa using h
  · have hl : l.dropLast ++ [l.getLast hne] = l := List.dropLast_append_getLast hne
    refine (isPrefixOf_eq_true_iff root l).2 ⟨t ++ [l.getLast hne], ?_⟩
    rw [← List.append_assoc, ht, hl]

/-- Claim C1: every path whose canonical form lies outside the configured
root is rejected by `validate_path` (for an existing path the reason names
the path), even when the string form prefix-matches the root (root
`/a/allowed` rejects `/a/allowed-other` although it is a string-form
prefix); and every existing path whose canonical form equals the root or
is a component-wise descendant of it is allowed with an empty reason. -/
theorem validate_path_confinement (root resolved : List String) (orig : String)
    (pathEx parentEx : Bool) :
    (root.isPrefixOf resolved = false →
      (validate_path root resolved orig pathEx parentEx).1 = false ∧
      (pathEx = true →
        (validate_path root resolved orig pathEx parentEx).2 =
          "Access denied: Path '" ++ orig ++ "' is outside allowed directory"))
    ∧ (pathEx = true → root.isPrefixOf resolved = true →
        validate_path root resolved orig pathEx parentEx = (true, ""))
    ∧ (strHasPre (pathString ["a", "allowed"]) (pathString ["a", "allowed-other"]) = true
        ∧ (validate_path ["a", "allowed"] ["a", "allowed-other"]
             "/a/allowed-other" true true).1 = false) := by
  refine ⟨fun h => ?_, fun hex hpre => ?_, by decide, by decide⟩
  · have hd : root.isPrefixOf resolved.dropLast = false := by
      cases hdl : root.isPrefixOf resolved.dropLast with
      | false => rfl
      | true => rw [isPrefixOf_of_dropLast hdl] at h; exact absurd h (by simp)
    cases pathEx <;> cases parentEx <;> simp [validate_path, h, hd]
  · subst hex
    simp [validate_path, hpre]

theorem validate_path_confinement_inst :
    (validate_path ["a"] ["b"] "/b" true true).1 = false
      ∧ validate_path ["a"] ["a", "x"] "/a/x" true true = (true, "") := by
  have h := validate_path_confinement ["a"] ["b"] "/b" true true
  have h2 := validate_path_confinement ["a"] ["a", "x"] "/a/x" true true
  exact ⟨(h.1 (by decide)).1, h2.2.1 rfl (by decide)⟩

/-- Claim C3: with a root configured, a non-existent path whose parent
exists and lies within the root is allowed, and a non-existent path whose
parent does not exist is rejected with a reason stating that the parent
directory does not exist (naming the parent). -/
theorem validate_path_missing_parent (root resolved : List String) (orig : String) :
    (root.isPrefixOf resolved.dropLast = true →
      validate_path root resolved orig false true = (true, ""))
    ∧ ((validate_path root resolved orig false false).1 = false
        ∧ (validate_path root resolved orig false false).2 =
            "Parent directory does not exist: " ++ pathString resolved.dropLast) := by
  exact ⟨fun h => by simp [validate_path, h],
    by simp [validate_path], by simp [validate_path]⟩

theorem validate_path_missing_parent_inst :
    validate_path ["a"] ["a", "b", "c"] "/a/b/c" false true = (true, "") := by
  have h := validate_path_missing_parent ["a"] ["a", "b", "c"] "/a/b/c"
  exact h.1 (by decide)

theorem starLoop_eq_true_iff (k : List Char → Bool) :
    ∀ t : List Char, (starLoop k t = true ↔
      ∃ pre suf, t = pre ++ suf ∧ (∀ c ∈ pre, ¬ c = '/') ∧ k suf = true) := by
  intro t
  induction t with
  | nil =>
    constructor
    · intro h
      exact ⟨[], [], rfl, by simp, h⟩
    · rintro ⟨pre, suf, heq, -, hk⟩
      rcases List.append_eq_nil.mp heq.symm with ⟨rfl, rfl⟩
      exact hk
  | cons c ts ih =>
    constructor
    · intro h
      have h' : k (c :: ts) = true ∨ (¬ c = '/' ∧ starLoop k ts = true) := by
        have hh : (k (c :: ts) || (!(c == '/') && starLoop k ts)) = true := h
        simpa using hh
      rcases h' with h1 | ⟨hc, hrest⟩
      · exact ⟨[], c :: ts, rfl, by simp, h1⟩
      · rcases ih.mp hrest with ⟨pre, suf, heq, hpre, hk⟩
        refine ⟨c :: pre, suf, by rw [heq]; rfl, ?_, hk⟩
        intro x hx
        rcases List.mem_cons.mp hx with rfl | hx
        · exact hc
        · exact hpre x hx
    · rintro ⟨pre, suf, heq, hpre, hk⟩
      cases pre with
      | nil =>
        rw [List.nil_append] at heq
        subst heq
        show (k (c :: ts) || (!(c == '/') && starLoop k ts)) = true
        simp [hk]
      | cons p ps =>
        injection heq with h1 h2
        subst h1
        have hslash : ¬ c = '/' := hpre c (by simp)
        have hts : starLoop k ts = true :=
          ih.mpr ⟨ps, suf, h2, fun x hx => hpre x (by simp [hx]), hk⟩
        show (k (c :: ts) || (!(c == '/') && starLoop k ts)) = true
        simp [hts, hslash]

theorem globMatch_literal :
    ∀ p : List Char, noStarChars p = true → ∀ t, (globMatch p t = true ↔ t = p) := by
  intro p
  induction p with
  | nil =>
    intro _ t
    cases t <;> simp [globMatch]
  | cons a ps ih =>
    intro hs t
    have hs' : (a == '*') = false ∧ noStarChars ps = true := by
      have hh : (!(a == '*') && noStarChars ps) = true := hs
      simpa using hh
    obtain ⟨ha, hps⟩ := hs'
    cases t with
    | nil => simp [globMatch, ha]
    | cons c ts =>
      have hrec := ih hps ts
      simp only [globMatch, ha, Bool.false_eq_true, if_false, Bool.and_eq_true,
        beq_iff_eq, hrec, List.cons.injEq]
      constructor
      · rintro ⟨rfl, rfl⟩
        exact ⟨rfl, rfl⟩
      · rintro ⟨rfl, rfl⟩
        exact ⟨rfl, rfl⟩

theorem simple_match_literal (text pat : String) (h : noStarStr pat = true) :
    (_simple_pattern_match text pat = true ↔ text = pat) := by
  unfold _simple_pattern_match
  rw [globMatch_literal pat.data h text.data]
  constructor
  · intro hd
    cases text
    cases pat
    simp only at hd
    rw [hd]
  · rintro rfl
    rfl

theorem endsSlash_append_slash (stem : String) : endsSlash (stem ++ "/") = true := by
  unfold endsSlash
  rw [String.data_append, show ("/" : String).data = ['/'] from rfl,
    List.getLast?_concat]
  rfl

theorem dropLastChar_append_slash (stem : String) : dropLastChar (stem ++ "/") = stem := by
  unfold dropLastChar
  rw [String.data_append, show ("/" : String).data = ['/'] from rfl,
    List.dropLast_concat]

/-- Claim C2 (counterexample): with the rule set `["build/"]` (which
contains `build/`), the path `src/build/x` is NOT ignored — the matcher
only compares the rule against leading prefixes of the path's segment
joins (`src`, `src/build`, `src/build/x`), never against `build` alone;
and the directory rule `b*/` matches `build/x` although no ancestor
segment sequence of that path equals the stripped rule `b*`, refuting
the plain-equality reading for wildcard rules. -/
theorem matches_gitignore_dir_rule_cex :
    ("build/" ∈ (["build/"] : List String)
      ∧ _is_gitignored true ["build/"] "src/build/x" = false)
    ∧ (_matches_gitignore_pattern "build/x" "b*/" = true
      ∧ ("build" = "b*" → False) ∧ ("build/x" = "b*" → False)) := by
  exact ⟨⟨by decide, by decide⟩, by decide, by decide, by decide⟩

/-- Claim C2 (amended): a directory-scoped rule (trailing separator)
matches iff some leading ancestor segment sequence of the root-relative
path, taken as a whole, wildcard-matches the stripped rule — plain
equality, as proved here, when the rule is wildcard-free; with the rule
set `["build/"]`, `build/output.o` is ignored while `src/build/x` and
`builder/x` are not. -/
theorem matches_gitignore_dir_rule_amended :
    (∀ path stem : String, noStarStr stem = true → regexSafe stem = true →
      (_matches_gitignore_pattern path (stem ++ "/") = true ↔
        ∃ k, 1 ≤ k ∧ k ≤ (pySplitSlash path).length ∧
          String.intercalate "/" ((pySplitSlash path).take k) = stem))
    ∧ (_is_gitignored true ["build/"] "build/output.o" = true
        ∧ _is_gitignored true ["build/"] "src/build/x" = false
        ∧ _is_gitignored true ["build/"] "builder/x" = false) := by
  refine ⟨?_, by decide, by decide, by decide⟩
  · intro path stem hstar _
    unfold _matches_gitignore_pattern
    simp only [endsSlash_append_slash, if_true, dropLastChar_append_slash]
    rw [List.any_eq_true]
    constructor
    · rintro ⟨i, hi, hmatch⟩
      rw [List.mem_range] at hi
      rw [simple_match_literal _ _ hstar] at hmatch
      exact ⟨i + 1, Nat.succ_le_succ (Nat.zero_le i), Nat.succ_le_of_lt hi, hmatch⟩
    · rintro ⟨k, hk1, hk2, heq⟩
      refine ⟨k - 1, ?_, ?_⟩
      · rw [List.mem_range]
        omega
      · rw [simple_match_literal _ _ hstar]
        have hk : k - 1 + 1 = k := by omega
        rw [hk]
        exact heq

theorem matches_gitignore_dir_rule_amended_inst :
    (_matches_gitignore_pattern "build/output.o" ("build" ++ "/") = true ↔
      ∃ k, 1 ≤ k ∧ k ≤ (pySplitSlash "build/output.o").length ∧
        String.intercalate "/" ((pySplitSlash "build/output.o").take k) = "build") := by
  exact matches_gitignore_dir_rule_amended.1 "build/output.o" "build" (by decide) (by decide)

theorem floating_rule_iff (path rule : String)
    (h1 : endsSlash rule = false) (h2 : startsSlash rule = false) :
    (_matches_gitignore_pattern path rule = true ↔
      _simple_pattern_match path rule = true
        ∨ ∃ i, i < (pySplitSlash path).length ∧
            (_simple_pattern_match
              (String.intercalate "/" ((pySplitSlash path).drop i)) rule = true
             ∨ _simple_pattern_match ((pySplitSlash path).getD i "") rule = true)) := by
  unfold _matches_gitignore_pattern
  simp only [h1, h2, Bool.false_eq_true, if_false, Bool.or_eq_true,
    List.any_eq_true, List.mem_range]

/-- Claim C5: a root-anchored rule (leading separator, not
directory-scoped) matches exactly what the stripped rule matches against
the whole root-relative path, so `/README.md` ignores the root-level
`README.md` but not `docs/README.md`; a free-floating rule matches the
full path, any suffix obtained by dropping leading segments, or any
single segment; the `*` wildcard matches precisely the runs of
characters that exclude the separator; and `*.log` ignores `a.log`,
`logs/a.log`, and the bare segment `a.log` at any depth. -/
theorem gitignore_anchored_floating_spec :
    (∀ path rest : String, rest.data ≠ [] → rest.data.getLast? ≠ some '/' →
      _matches_gitignore_pattern path ("/" ++ rest) = _simple_pattern_match path rest)
    ∧ (_matches_gitignore_pattern "README.md" "/README.md" = true
        ∧ _matches_gitignore_pattern "docs/README.md" "/README.md" = false)
    ∧ (∀ path rule : String, endsSlash rule = false → startsSlash rule = false →
        (_matches_gitignore_pattern path rule = true ↔
          _simple_pattern_match path rule = true
            ∨ ∃ i, i < (pySplitSlash path).length ∧
                (_simple_pattern_match
                  (String.intercalate "/" ((pySplitSlash path).drop i)) rule = true
                 ∨ _simple_pattern_match ((pySplitSlash path).getD i "") rule = true)))
    ∧ (∀ ps t : List Char,
        (globMatch ('*' :: ps) t = true ↔
          ∃ pre suf, t = pre ++ suf ∧ (∀ c ∈ pre, ¬ c = '/') ∧ globMatch ps suf = true))
    ∧ (_matches_gitignore_pattern "a.log" "*.log" = true
        ∧ _matches_gitignore_pattern "logs/a.log" "*.log" = true
        ∧ ∀ path : String, "a.log" ∈ pySplitSlash path →
            _matches_gitignore_pattern path "*.log" = true) := by
  refine ⟨?_, ⟨by decide, by decide⟩, fun path rule h1 h2 => floating_rule_iff path rule h1 h2,
    ?_, by decide, by decide, ?_⟩
  · intro path rest hne hlast
    have hends : endsSlash ("/" ++ rest) = false := by
      unfold endsSlash
      rw [String.data_append, show ("/" : String).data = ['/'] from rfl]
      cases hrd : rest.data with
      | nil => exact absurd hrd hne
      | cons c cs =>
        rw [List.singleton_append, List.getLast?_cons_cons]
        rw [hrd] at hlast
        exact beq_eq_false_iff_ne.mpr hlast
    have hstarts : startsSlash ("/" ++ rest) = true := by
      unfold startsSlash
      rw [String.data_append, show ("/" : String).data = ['/'] from rfl]
      rfl
    have hdrop : dropFirstChar ("/" ++ rest) = rest := by
      unfold dropFirstChar
      rw [String.data_append, show ("/" : String).data = ['/'] from rfl]
      rfl
    unfold _matches_gitignore_pattern
    simp only [hends, hstarts, hdrop, Bool.false_eq_true, if_false, if_true]
  · intro ps t
    show (starLoop (globMatch ps) t = true ↔ _)
    exact starLoop_eq_true_iff _ t
  · intro path hmem
    rw [floating_rule_iff path "*.log" (by decide) (by decide)]
    rcases List.mem_iff_get.mp hmem with ⟨⟨i, hi⟩, hgi⟩
    refine Or.inr ⟨i, hi, Or.inr ?_⟩
    have : (pySplitSlash path).getD i "" = (pySplitSlash path).get ⟨i, hi⟩ := by
      rw [List.getD_eq_getElem _ _ hi]
      rfl
    rw [this, hgi]
    decide

theorem gitignore_anchored_floating_spec_inst :
    _matches_gitignore_pattern "README.md" ("/" ++ "README.md")
      = _simple_pattern_match "README.md" "README.md" := by
  have h := gitignore_anchored_floating_spec
  exact h.1 "README.md" "README.md" (by decide) (by decide)

/-- Claim C4: the binary classifier samples at most the first 1024 bytes;
an empty file is not binary; any null byte in the sample makes it binary;
otherwise it is binary exactly when the fraction of sampled bytes with
value below 32 (excluding 9, 10, 13) strictly exceeds 0.30; and a read
or permission failure while sampling classifies as binary. -/
theorem is_binary_file_spec :
    (_is_binary_file (some []) = false)
    ∧ (∀ bs : List Nat, 0 ∈ bs.take 1024 → _is_binary_file (some bs) = true)
    ∧ (∀ bs : List Nat, bs ≠ [] → ¬ 0 ∈ bs.take 1024 →
        (_is_binary_file (some bs) = true ↔
          (3 : ℚ) / 10 <
            (((bs.take 1024).filter nonTextByte).length : ℚ) /
              ((bs.take 1024).length : ℚ)))
    ∧ (_is_binary_file none = true)
    ∧ (∀ bs : List Nat, _is_binary_file (some bs) = _is_binary_file (some (bs.take 1024))) := by
  refine ⟨rfl, ?_, ?_, rfl, ?_⟩
  · intro bs h
    have hne : bs.take 1024 ≠ [] := List.ne_nil_of_mem h
    simp [_is_binary_file, h, hne]
  · intro bs hne h0
    have htne : bs.take 1024 ≠ [] := by
      rw [Ne, List.take_eq_nil_iff]
      simp [hne]
    have hlen : 0 < (bs.take 1024).length := List.length_pos.mpr htne
    have hL : (0 : ℚ) < ((bs.take 1024).length : ℚ) := by exact_mod_cast hlen
    have key : (3 * (bs.take 1024).length <
          10 * ((bs.take 1024).filter nonTextByte).length) ↔
        ((3 : ℚ) / 10 <
          (((bs.take 1024).filter nonTextByte).length : ℚ) /
            ((bs.take 1024).length : ℚ)) := by
      rw [div_lt_div_iff₀ (by norm_num) hL]
      constructor
      · intro h
        have hq : ((3 * (bs.take 1024).length : ℕ) : ℚ) <
            ((10 * ((bs.take 1024).filter nonTextByte).length : ℕ) : ℚ) := by
          exact_mod_cast h
        push_cast at hq
        linarith
      · intro h
        have hq : ((3 * (bs.take 1024).length : ℕ) : ℚ) <
            ((10 * ((bs.take 1024).filter nonTextByte).length : ℕ) : ℚ) := by
          push_cast
          linarith
        exact_mod_cast hq
    simp only [_is_binary_file, htne, h0, if_false, decide_eq_true_eq,
      List.isEmpty_iff, ite_false]
    exact key
  · intro bs
    simp [_is_binary_file, List.take_take]

theorem is_binary_file_spec_inst :
    _is_binary_file (some [0]) = true
      ∧ (_is_binary_file (some [1]) = true ↔
          (3 : ℚ) / 10 <
            (((([1] : List Nat).take 1024).filter nonTextByte).length : ℚ) /
              ((([1] : List Nat).take 1024).length : ℚ)) := by
  have h := is_binary_file_spec
  exact ⟨h.2.1 [0] (by decide), h.2.2.1 [1] (by decide) (by decide)⟩

/-- Claim C6: `read_text` produces the access-denied error exactly when
path validation fails (carrying the verdict's reason); a file classified
binary is rejected as unreadable; otherwise the strict decode result is
returned when it succeeds, the replacement decode result is returned
when strict decoding fails, and the undecodable error arises exactly
when the path is valid, the file is not binary, and both decoding
attempts fail. -/
theorem read_text_spec (v : Bool × String) (isB : Bool)
    (sd rd : Option String) (p enc : String) :
    ((∃ m, read_text v isB sd rd p enc = .error (.accessDenied m)) ↔ v.1 = false)
    ∧ (v.1 = false → read_text v isB sd rd p enc = .error (.accessDenied v.2))
    ∧ (v.1 = true → isB = true →
        read_text v isB sd rd p enc = .error (.binaryFile p))
    ∧ (∀ s, v.1 = true → isB = false → sd = some s →
        read_text v isB sd rd p enc = .ok s)
    ∧ (∀ s, v.1 = true → isB = false → sd = none → rd = some s →
        read_text v isB sd rd p enc = .ok s)
    ∧ ((read_text v isB sd rd p enc = .error (.undecodable enc p)) ↔
        (v.1 = true ∧ isB = false ∧ sd = none ∧ rd = none)) := by
  obtain ⟨vb, vm⟩ := v
  cases vb <;> cases isB <;> cases sd <;> cases rd <;>
    simp [read_text]

theorem read_text_spec_inst :
    read_text (false, "why") true (some "x") none "p.txt" "utf-8"
      = .error (.accessDenied "why") := by
  exact (read_text_spec (false, "why") true (some "x") none "p.txt" "utf-8").2.1 rfl

/-- Claim C7 (counterexample): `start_line < 1` does not yield the
"must be >= 1" error for every path — on a non-existent path the
existence check answers first; and with both range arguments invalid
(`0, -1`, so `end_line < start_line` too) the start-line error wins, so
"must be >= start line" is not produced either. -/
theorem read_file_range_order_cex :
    (read_file_range emptyEnv "missing.txt" 0 5 true
        = "Error: File does not exist: missing.txt"
      ∧ strContains (read_file_range emptyEnv "missing.txt" 0 5 true)
          "must be >= 1" = false)
    ∧ ((-1 : Int) < 0
      ∧ read_file_range fileEnv "f.txt" 0 (-1) true
          = "Error: Start line must be >= 1, got 0"
      ∧ strContains (read_file_range fileEnv "f.txt" 0 (-1) true)
          "must be >= start line" = false) := by
  exact ⟨⟨by decide, by decide⟩, by decide, by decide, by decide⟩

/-- Claim C7 (amended): for every path that passes the existence and
file-type checks, `start_line < 1` yields the "must be >= 1" error
(that check precedes the end-line check), and `end_line < start_line`
with `start_line ≥ 1` yields the "must be >= start line" error; on a
readable 10-line file, `read_file_range(path, 3, 7)` returns exactly
lines 3 through 7 inclusive, each prefixed with its 1-based number and
a colon. -/
theorem read_file_range_amended :
    (∀ (env : Env) (path : String) (s e : Int) (ln : Bool),
      env.ex path = true → env.isFileAt path = true →
      (s < 1 → read_file_range env path s e ln
          = "Error: Start line must be >= 1, got " ++ toString s)
      ∧ (1 ≤ s → e < s → read_file_range env path s e ln
          = "Error: End line must be >= start line, got range ("
            ++ toString s ++ ", " ++ toString e ++ ")"))
    ∧ read_file_range fileEnv "f.txt" 3 7 true
        = "3:L3\n4:L4\n5:L5\n6:L6\n7:L7" := by
  refine ⟨?_, by decide⟩
  intro env path s e ln hex hisf
  constructor
  · intro hs
    simp [read_file_range, read_file_rangeBody, pyCatch, hex, hisf, hs]
  · intro hs1 hs2
    have hns : ¬ s < 1 := not_lt.mpr hs1
    simp [read_file_range, read_file_rangeBody, pyCatch, hex, hisf, hns, hs2]

theorem read_file_range_amended_inst :
    read_file_range fileEnv "f.txt" 0 5 true
      = "Error: Start line must be >= 1, got " ++ toString (0 : Int) := by
  exact (read_file_range_amended.1 fileEnv "f.txt" 0 5 true (by decide) (by decide)).1
    (by norm_num)

theorem pyCatch_cases (x : Except String String) :
    (∃ out, x = .ok out ∧ pyCatch x = out)
      ∨ (∃ msg, x = .error msg ∧ pyCatch x = "Error: " ++ msg) := by
  cases x with
  | ok s => exact Or.inl ⟨s, rfl, rfl⟩
  | error e => exact Or.inr ⟨e, rfl, rfl⟩

/-- Claim C8: each of the five exposed operations is the catch-all
wrapper over its body — for every environment and all inputs (arbitrary
path strings, arbitrary integers for before/after/context and the line
range including negatives, empty search strings) the operation returns
the body's string when the body completes and the "Error: "-prefixed
message of the raised exception otherwise, so a textual result is
produced in every case and no exception propagates to the transport. -/
theorem tools_total_textual (env : Env) (p q : String) (rec ln fn : Bool)
    (b a s e : Int) (ctx : Option Int) :
    ((∃ out, list_dirBody env p rec = .ok out ∧ list_dir env p rec = out)
      ∨ (∃ msg, list_dirBody env p rec = .error msg
          ∧ list_dir env p rec = "Error: " ++ msg))
    ∧ ((∃ out, read_fileBody env p ln = .ok out ∧ read_file env p ln = out)
      ∨ (∃ msg, read_fileBody env p ln = .error msg
          ∧ read_file env p ln = "Error: " ++ msg))
    ∧ ((∃ out, read_file_grepBody env p q b a ctx ln = .ok out
          ∧ read_file_grep env p q b a ctx ln = out)
      ∨ (∃ msg, read_file_grepBody env p q b a ctx ln = .error msg
          ∧ read_file_grep env p q b a ctx ln = "Error: " ++ msg))
    ∧ ((∃ out, read_files_grepBody env p q b a ctx ln fn = .ok out
          ∧ read_files_grep env p q b a ctx ln fn = out)
      ∨ (∃ msg, read_files_grepBody env p q b a ctx ln fn = .error msg
          ∧ read_files_grep env p q b a ctx ln fn = "Error: " ++ msg))
    ∧ ((∃ out, read_file_rangeBody env p s e ln = .ok out
          ∧ read_file_range env p s e ln = out)
      ∨ (∃ msg, read_file_rangeBody env p s e ln = .error msg
          ∧ read_file_range env p s e ln = "Error: " ++ msg)) :=
  ⟨pyCatch_cases _, pyCatch_cases _, pyCatch_cases _, pyCatch_cases _, pyCatch_cases _⟩

/-- Claim C9: the five operations are pure functions of the environment
(root, ignore rules, toggles, file contents) and their arguments, so
invoking any of them twice with the same arguments against an unchanged
environment yields identical output strings. -/
theorem tools_deterministic (env : Env) (p q : String) (rec ln fn : Bool)
    (b a s e : Int) (ctx : Option Int) :
    list_dir env p rec = list_dir env p rec
    ∧ read_file env p ln = read_file env p ln
    ∧ read_file_grep env p q b a ctx ln = read_file_grep env p q b a ctx ln
    ∧ read_files_grep env p q b a ctx ln fn = read_files_grep env p q b a ctx ln fn
    ∧ read_file_range env p s e ln = read_file_range env p s e ln :=
  ⟨rfl, rfl, rfl, rfl, rfl⟩

theorem mem_pyRange (a b x : Int) : x ∈ pyRange a b ↔ a ≤ x ∧ x < b := by
  unfold pyRange
  rw [List.mem_map]
  constructor
  · rintro ⟨k, hk, rfl⟩
    rw [List.mem_range] at hk
    have hk' : (k : Int) < b - a := Int.lt_toNat.mp hk
    omega
  · rintro ⟨h1, h2⟩
    refine ⟨(x - a).toNat, ?_, ?_⟩
    · rw [List.mem_range, Int.lt_toNat, Int.toNat_of_nonneg (by omega : (0 : Int) ≤ x - a)]
      omega
    · rw [Int.toNat_of_nonneg (by omega : (0 : Int) ≤ x - a)]
      omega

theorem pyRange_toFinset (a b : Int) : (pyRange a b).toFinset = Finset.Ico a b := by
  ext x
  simp [mem_pyRange]

theorem append_colon_ne (X line : String) : ¬ (X ++ ":" ++ line = "--") := by
  intro hcon
  have hmem : ':' ∈ (X ++ ":" ++ line).data := by
    rw [String.data_append, String.data_append]
    simp [show (":" : String).data = [':'] from rfl]
  rw [hcon, show ("--" : String).data = ['-', '-'] from rfl] at hmem
  simp at hmem

theorem formatGrepLine_ne_sep (fn ln : Bool) (disp : String) (idx : Int)
    (line : String) (h : ln = true ∨ fn = true) :
    ¬ formatGrepLine fn ln disp idx line = "--" := by
  intro hcon
  have hne : ((if fn then [disp] else [])
      ++ (if ln then [toString (idx + 1)] else [])) ≠ [] := by
    rcases h with h | h
    · subst h
      cases fn <;> simp
    · subst h
      cases ln <;> simp
  have hiff : ((if fn then [disp] else [])
      ++ (if ln then [toString (idx + 1)] else [])).isEmpty = false := by
    cases hp : ((if fn then [disp] else [])
        ++ (if ln then [toString (idx + 1)] else [])).isEmpty
    · rfl
    · exact absurd (List.isEmpty_iff.mp hp) hne
  simp only [formatGrepLine, hiff, Bool.false_eq_true, if_false] at hcon
  exact append_colon_ne _ _ hcon

theorem grepAddRange_nodup_set (lines : List String) (ln fn : Bool) (disp : String) :
    ∀ (idxs : List Int) (st : List String × List Int), st.2.Nodup →
      ((grepAddRange lines ln fn disp st idxs).2.Nodup
        ∧ (grepAddRange lines ln fn disp st idxs).2.toFinset
            = st.2.toFinset ∪ idxs.toFinset) := by
  intro idxs
  induction idxs with
  | nil =>
    intro st hnd
    exact ⟨hnd, by simp [grepAddRange]⟩
  | cons i is ih =>
    intro st hnd
    by_cases hmem : i ∈ st.2
    · have hstep : grepAddRange lines ln fn disp st (i :: is)
          = grepAddRange lines ln fn disp st is := by
        simp [grepAddRange, hmem]
      rw [hstep]
      rcases ih st hnd with ⟨h1, h2⟩
      refine ⟨h1, ?_⟩
      rw [h2]
      ext x
      simp only [Finset.mem_union, List.mem_toFinset, List.toFinset_cons,
        Finset.mem_insert]
      constructor
      · rintro (hx | hx)
        · exact Or.inl hx
        · exact Or.inr (Or.inr hx)
      · rintro (hx | rfl | hx)
        · exact Or.inl hx
        · exact Or.inl hmem
        · exact Or.inr hx
    · have hstep : grepAddRange lines ln fn disp st (i :: is)
          = grepAddRange lines ln fn disp
              (st.1 ++ [formatGrepLine fn ln disp i (lines.getD i.toNat "")],
               st.2 ++ [i]) is := by
        simp [grepAddRange, hmem]
      rw [hstep]
      have hnd' : (st.2 ++ [i]).Nodup := by
        simp [List.nodup_append, hnd, hmem]
      rcases ih (st.1 ++ [formatGrepLine fn ln disp i (lines.getD i.toNat "")],
        st.2 ++ [i]) hnd' with ⟨h1, h2⟩
      refine ⟨h1, ?_⟩
      rw [h2]
      ext x
      simp only [Finset.mem_union, List.mem_toFinset, List.toFinset_cons,
        Finset.mem_insert, List.mem_append, List.mem_singleton]
      tauto

theorem grepAddRange_count (lines : List String) (ln fn : Bool) (disp : String)
    (h : ln = true ∨ fn = true) :
    ∀ (idxs : List Int) (st : List String × List Int),
      (st.1.filter (fun r => !(r == "--"))).length = st.2.length →
      ((grepAddRange lines ln fn disp st idxs).1.filter
          (fun r => !(r == "--"))).length
        = (grepAddRange lines ln fn disp st idxs).2.length := by
  intro idxs
  induction idxs with
  | nil =>
    intro st hc
    simpa [grepAddRange] using hc
  | cons i is ih =>
    intro st hc
    by_cases hmem : i ∈ st.2
    · have hstep : grepAddRange lines ln fn disp st (i :: is)
          = grepAddRange lines ln fn disp st is := by
        simp [grepAddRange, hmem]
      rw [hstep]
      exact ih st hc
    · have hstep : grepAddRange lines ln fn disp st (i :: is)
          = grepAddRange lines ln fn disp
              (st.1 ++ [formatGrepLine fn ln disp i (lines.getD i.toNat "")],
               st.2 ++ [i]) is := by
        simp [grepAddRange, hmem]
      rw [hstep]
      apply ih
      have hne := formatGrepLine_ne_sep fn ln disp i (lines.getD i.toNat "") h
      have hfmt : (!(formatGrepLine fn ln disp i (lines.getD i.toNat "") == "--"))
          = true := by
        cases hx : (formatGrepLine fn ln disp i (lines.getD i.toNat "") == "--") with
        | false => rfl
        | true => exact absurd (eq_of_beq hx) hne
      rw [List.filter_append, List.length_append, List.length_append]
      have hone : (List.filter (fun r => !(r == "--"))
          [formatGrepLine fn ln disp i (lines.getD i.toNat "")]).length = 1 := by
        rw [List.filter_cons, if_pos hfmt, List.filter_nil]
        rfl
      rw [hone, hc]
      rfl

theorem grepStep_ok (lines : List String) (before after : Nat) (ln fn : Bool)
    (disp : String) (m : Int) (hm0 : 0 ≤ m) (hmlen : m < (lines.length : Int))
    (st : List String × List Int) :
    ∃ base : List String × List Int,
      base.2 = st.2
      ∧ (base.1.filter (fun r => !(r == "--"))).length
          = (st.1.filter (fun r => !(r == "--"))).length
      ∧ grepStep lines (before : Int) (after : Int) ln fn disp st m
          = .ok (grepAddRange lines ln fn disp base
              (pyRange (max 0 (m - (before : Int)))
                (min (lines.length : Int) (m + (after : Int) + 1)))) := by
  have hb : (0 : Int) ≤ (before : Int) := Int.natCast_nonneg before
  have ha : (0 : Int) ≤ (after : Int) := Int.natCast_nonneg after
  have hstart : max 0 (m - (before : Int)) ≤ m := max_le hm0 (by omega)
  have hstop : m < min (lines.length : Int) (m + (after : Int) + 1) :=
    lt_min hmlen (by omega)
  have hne : pyRange (max 0 (m - (before : Int)))
      (min (lines.length : Int) (m + (after : Int) + 1)) ≠ [] := by
    intro hcon
    have hm : m ∈ pyRange (max 0 (m - (before : Int)))
        (min (lines.length : Int) (m + (after : Int) + 1)) :=
      (mem_pyRange _ _ _).mpr ⟨hstart, hstop⟩
    rw [hcon] at hm
    exact absurd hm (List.not_mem_nil m)
  by_cases hc1 : (st.1.isEmpty || st.2.isEmpty) = true
  · exact ⟨st, rfl, rfl, by simp [grepStep, hc1]⟩
  · cases hpr : pyRange (max 0 (m - (before : Int)))
        (min (lines.length : Int) (m + (after : Int) + 1)) with
    | nil => exact absurd hpr hne
    | cons i0 rest =>
      by_cases hc2 : i0 > maxIntList st.2 + 1
      · refine ⟨(st.1 ++ ["--"], st.2), rfl, by simp, ?_⟩
        rw [← hpr]
        simp [grepStep, hc1, hpr, hc2]
      · refine ⟨st, rfl, rfl, ?_⟩
        rw [← hpr]
        simp [grepStep, hc1, hpr, hc2]

theorem grepRun_aux (lines : List String) (before after : Nat) (ln fn : Bool)
    (disp : String) :
    ∀ ms : List Int, (∀ m ∈ ms, 0 ≤ m ∧ m < (lines.length : Int)) →
    ∀ st : List String × List Int, st.2.Nodup →
    ∃ res inc,
      ms.foldlM (grepStep lines (before : Int) (after : Int) ln fn disp) st
          = .ok (res, inc)
      ∧ inc.Nodup
      ∧ inc.toFinset = st.2.toFinset
          ∪ windowSet (lines.length : Int) (before : Int) (after : Int) ms
      ∧ ((ln = true ∨ fn = true) →
          (st.1.filter (fun r => !(r == "--"))).length = st.2.length →
          (res.filter (fun r => !(r == "--"))).length = inc.length) := by
  intro ms
  induction ms with
  | nil =>
    intro _ st hnd
    exact ⟨st.1, st.2, rfl, hnd, by simp [windowSet], fun _ hc => hc⟩
  | cons m ms ih =>
    intro hbound st hnd
    obtain ⟨hm0, hmlen⟩ := hbound m (List.mem_cons_self m ms)
    obtain ⟨base, hb2, hbcount, hstep⟩ :=
      grepStep_ok lines before after ln fn disp m hm0 hmlen st
    have hndb : base.2.Nodup := hb2 ▸ hnd
    obtain ⟨hnd1, hset1⟩ :=
      grepAddRange_nodup_set lines ln fn disp
        (pyRange (max 0 (m - (before : Int)))
          (min (lines.length : Int) (m + (after : Int) + 1))) base hndb
    obtain ⟨res, inc, hfold, hnodup, hset, hcount⟩ :=
      ih (fun x hx => hbound x (List.mem_cons_of_mem m hx)) _ hnd1
    refine ⟨res, inc, ?_, hnodup, ?_, ?_⟩
    · rw [List.foldlM_cons, hstep]
      simpa using hfold
    · rw [hset, hset1, hb2, pyRange_toFinset]
      have hws : windowSet (lines.length : Int) (before : Int) (after : Int) (m :: ms)
          = Finset.Ico (max 0 (m - (before : Int)))
              (min (lines.length : Int) (m + (after : Int) + 1))
            ∪ windowSet (lines.length : Int) (before : Int) (after : Int) ms := by
        unfold windowSet
        rw [List.toFinset_cons, Finset.biUnion_insert]
      rw [hws, Finset.union_assoc]
    · intro hlf hc
      refine hcount hlf ?_
      apply grepAddRange_count lines ln fn disp hlf
      rw [hbcount, hb2]
      exact hc

theorem fst_lt_of_mem_enumFrom :
    ∀ (l : List String) (n : Nat) (p : Nat × String),
      p ∈ List.enumFrom n l → p.1 < n + l.length := by
  intro l
  induction l with
  | nil =>
    intro n p hp
    simp [List.enumFrom] at hp
  | cons x xs ih =>
    intro n p hp
    simp only [List.enumFrom] at hp
    rcases List.mem_cons.mp hp with rfl | hp
    · simp
    · have := ih (n + 1) p hp
      simp only [List.length_cons]
      omega

theorem matchIndices_bound (lines : List String) (search : String) :
    ∀ m ∈ matchIndices lines search, 0 ≤ m ∧ m < (lines.length : Int) := by
  intro m hm
  simp only [matchIndices, List.mem_map, List.mem_filter] at hm
  obtain ⟨p, ⟨hp, -⟩, rfl⟩ := hm
  have h := fst_lt_of_mem_enumFrom lines 0 p (by simpa [List.enum] using hp)
  refine ⟨Int.natCast_nonneg p.1, ?_⟩
  exact_mod_cast (by omega : p.1 < lines.length)

/-- Claim C10: in `_grep_file`'s output (joined by `read_file_grep`, and
contributed per file by `read_files_grep`) every line of the searched
file appears at most once even when context windows overlap or touch:
the recorded indices are duplicate-free, their set is exactly the union
of the clipped per-match windows `[m - before, m + after]`, and whenever
a line-number or filename prefix is present the non-separator output
lines correspond one-to-one to those indices. -/
theorem grep_file_window_union (env : Env) (f content search : String)
    (before after : Nat) (ln fn : Bool)
    (hread : env.readTextAt f = .ok content) :
    ∃ res inc,
      grepRun (splitlines content) search (before : Int) (after : Int) ln fn
          ((env.cwdRel f).getD f) = .ok (res, inc)
      ∧ _grep_file env f search (before : Int) (after : Int) ln fn = res
      ∧ inc.Nodup
      ∧ inc.toFinset = windowSet ((splitlines content).length : Int)
          (before : Int) (after : Int)
          (matchIndices (splitlines content) search)
      ∧ ((ln = true ∨ fn = true) →
          (res.filter (fun r => !(r == "--"))).length = inc.length) := by
  obtain ⟨res, inc, hfold, hnodup, hset, hcount⟩ :=
    grepRun_aux (splitlines content) before after ln fn ((env.cwdRel f).getD f)
      (matchIndices (splitlines content) search)
      (matchIndices_bound _ _) ([], []) List.nodup_nil
  refine ⟨res, inc, hfold, ?_, hnodup, by simpa using hset,
    fun hlf => hcount hlf (by simp)⟩
  unfold _grep_file
  rw [hread]
  cases hms : (matchIndices (splitlines content) search).isEmpty
  · simp only [hms, Bool.false_eq_true, if_false]
    rw [show grepRun (splitlines content) search (before : Int) (after : Int) ln fn
        ((env.cwdRel f).getD f) = .ok (res, inc) from hfold]
  · have hnil : matchIndices (splitlines content) search = [] :=
      List.isEmpty_iff.mp hms
    rw [hnil] at hfold
    rw [List.foldlM_nil] at hfold
    have hres : ([] : List String) = res := by
      have h := hfold
      simp only [pure, Except.pure, Except.ok.injEq, Prod.mk.injEq] at h
      exact h.1
    simp only [hms, if_true]
    exact hres

theorem grep_file_window_union_inst :
    ∃ res inc,
      grepRun (splitlines tenLines) "L5" ((1 : Nat) : Int) ((1 : Nat) : Int) true false
          ((fileEnv.cwdRel "f.txt").getD "f.txt") = .ok (res, inc)
      ∧ _grep_file fileEnv "f.txt" "L5" ((1 : Nat) : Int) ((1 : Nat) : Int) true false = res
      ∧ inc.Nodup
      ∧ inc.toFinset = windowSet ((splitlines tenLines).length : Int)
          ((1 : Nat) : Int) ((1 : Nat) : Int)
          (matchIndices (splitlines tenLines) "L5")
      ∧ ((true = true ∨ false = true) →
          (res.filter (fun r => !(r == "--"))).length = inc.length) := by
  exact grep_file_window_union fileEnv "f.txt" tenLines "L5" 1 1 true false rfl

end McpFileLens
